import Mathlib

/-!
Verification of the wiki-pdf client-side script
(`src/wiki_pdf/public/js/wiki_pdf.js`) against its specification.

The script computes the current wiki route from the browser path, builds a
download URL for the server PDF endpoint, and inserts (or refreshes) a
"Download PDF" anchor in the navigation bar.  We embed the string
computations and the DOM manipulation shallowly: the DOM is a rose tree,
jQuery selector operations become pre-order searches, and the one entry
point `add_download_pdf_button` becomes a pure document transformer.
-/

namespace WikiPdf

/-! ## Route computation

JS: `var current_route = window.location.pathname.replace(/^\//, '');`
followed by stripping a single trailing slash via `endsWith('/')` and
`slice(0, -1)`. -/

/-- Embeds `p.replace(/^\//, '')`: the anchored, non-global regex removes
one leading slash when present and nothing otherwise. -/
def stripLeadingSlash : List Char → List Char
  | [] => []
  | c :: rest => if c = '/' then rest else c :: rest

/-- Embeds `current_route.endsWith('/')`. -/
def jsEndsWithSlash (l : List Char) : Bool :=
  l.getLast? == some '/'

/-- Route computation on the character list: leading strip, then the
conditional trailing strip (`slice(0, -1)` drops the last character). -/
def current_routeL (p : List Char) : List Char :=
  let r := stripLeadingSlash p
  if jsEndsWithSlash r then r.dropLast else r

/-- The `current_route` value computed by `add_download_pdf_button` from
the browser path string. -/
def current_route (p : String) : String :=
  ⟨current_routeL p.data⟩

/-! ## Percent-encoding

The script calls the ECMAScript builtin `encodeURIComponent`, which is not
part of this repository; we embed it from its standard definition:
characters in the unreserved set `A-Z a-z 0-9 - _ . ! ~ * ' ( )` pass
through, every other code point is UTF-8 encoded and each byte is written
as `%` followed by two uppercase hex digits. -/

/-- Unreserved characters of `encodeURIComponent`, by code point
(letters, digits, and `- _ . ! ~ * ' ( )`). -/
def isUnreservedCode (n : Nat) : Bool :=
  (65 ≤ n && n ≤ 90) || (97 ≤ n && n ≤ 122) || (48 ≤ n && n ≤ 57) ||
  n == 45 || n == 95 || n == 46 || n == 33 || n == 126 ||
  n == 42 || n == 39 || n == 40 || n == 41

/-- Uppercase hexadecimal digit for a value below 16. -/
def hexDigitChar (n : Nat) : Char :=
  if n < 10 then Char.ofNat (48 + n) else Char.ofNat (55 + n)

/-- Percent-escape of one byte: `%` plus two uppercase hex digits. -/
def pctByte (b : Nat) : List Char :=
  ['%', hexDigitChar (b / 16), hexDigitChar (b % 16)]

/-- UTF-8 byte sequence of a Unicode code point. -/
def utf8Bytes (c : Nat) : List Nat :=
  if c < 128 then [c]
  else if c < 2048 then [192 + c / 64, 128 + c % 64]
  else if c < 65536 then [224 + c / 4096, 128 + (c / 64) % 64, 128 + c % 64]
  else [240 + c / 262144, 128 + (c / 4096) % 64, 128 + (c / 64) % 64, 128 + c % 64]

/-- Encoding of a single character under `encodeURIComponent`. -/
def encodeCharURI (c : Char) : List Char :=
  if isUnreservedCode c.toNat then [c]
  else ((utf8Bytes c.toNat).map pctByte).flatten

/-- Modelled from the spec and the ECMAScript standard: the
`encodeURIComponent` builtin used at the call site in
`add_download_pdf_button`; the builtin itself is not in `src/`. -/
def encodeURIComponent (s : String) : String :=
  ⟨(s.data.map encodeCharURI).flatten⟩

/-- The download URL built by the script:
`"/api/method/wiki_pdf.pdf.download_wiki_pdf?route=" + encodeURIComponent(current_route)`. -/
def download_url (route : String) : String :=
  "/api/method/wiki_pdf.pdf.download_wiki_pdf?route=" ++ encodeURIComponent route

/-! ## DOM model

A document is a rose tree of elements.  Each element carries the pieces of
state the script touches: the tag, the `id`, the class list, generic
attributes (`href`, `target`, `rel`), inline styles, and text content.
`DomForest` is an inlined list of siblings, mutually inductive with `Dom`
so that structural recursion and induction stay simple. -/

mutual
inductive Dom : Type where
  | elem (tag idAttr : String) (classes : List String)
      (attrs : List (String × String)) (styles : List (String × String))
      (text : String) (children : DomForest)
  deriving DecidableEq
inductive DomForest : Type where
  | nil : DomForest
  | cons (d : Dom) (ds : DomForest) : DomForest
  deriving DecidableEq
end

/-- The element's tag name. -/
def Dom.getTag : Dom → String
  | .elem t _ _ _ _ _ _ => t

/-- The element's `id`. -/
def Dom.getId : Dom → String
  | .elem _ i _ _ _ _ _ => i

/-- The element's class list. -/
def Dom.getClasses : Dom → List String
  | .elem _ _ cls _ _ _ _ => cls

/-- The element's attribute list. -/
def Dom.getAttrs : Dom → List (String × String)
  | .elem _ _ _ a _ _ _ => a

/-- The element's inline style list. -/
def Dom.getStyles : Dom → List (String × String)
  | .elem _ _ _ _ s _ _ => s

/-- The element's text content. -/
def Dom.getText : Dom → String
  | .elem _ _ _ _ _ x _ => x

/-- The element's children. -/
def Dom.getChildren : Dom → DomForest
  | .elem _ _ _ _ _ _ cs => cs

/-- Does the element carry the given CSS class? -/
def Dom.hasClass (c : String) (d : Dom) : Bool :=
  d.getClasses.contains c

/-- Attribute lookup in an attribute list. -/
def lookupAttr : List (String × String) → String → Option String
  | [], _ => none
  | (k, v) :: rest, key => if k = key then some v else lookupAttr rest key

/-- jQuery `.attr(key, val)` on an attribute list: overwrite the existing
entry or append a new one. -/
def setAttr : List (String × String) → String → String → List (String × String)
  | [], k, v => [(k, v)]
  | (k2, v2) :: rest, k, v =>
    if k2 = k then (k, v) :: rest else (k2, v2) :: setAttr rest k v

/-- Remove every entry for a key from an attribute list. -/
def eraseAttr : List (String × String) → String → List (String × String)
  | [], _ => []
  | (k2, v2) :: rest, k =>
    if k2 = k then eraseAttr rest k else (k2, v2) :: eraseAttr rest k

/-- Overwrite the element's `href` attribute. -/
def Dom.setHref (url : String) : Dom → Dom
  | .elem t i cls a s x cs => .elem t i cls (setAttr a "href" url) s x cs

/-- Drop the element's `href` attribute. -/
def Dom.dropHref : Dom → Dom
  | .elem t i cls a s x cs => .elem t i cls (eraseAttr a "href") s x cs

mutual
/-- Is there an element with the given `id` in the tree (`$('#id')`)? -/
def existsIdD (target : String) : Dom → Bool
  | .elem _ i _ _ _ _ cs => (i = target) || existsIdF target cs
/-- Is there an element with the given `id` in the forest? -/
def existsIdF (target : String) : DomForest → Bool
  | .nil => false
  | .cons d ds => existsIdD target d || existsIdF target ds
end

mutual
/-- Number of elements with the given `id` in the tree. -/
def countIdD (target : String) : Dom → Nat
  | .elem _ i _ _ _ _ cs => (if i = target then 1 else 0) + countIdF target cs
/-- Number of elements with the given `id` in the forest. -/
def countIdF (target : String) : DomForest → Nat
  | .nil => 0
  | .cons d ds => countIdD target d + countIdF target ds
end

mutual
/-- Is there an element with the given class in the tree (`$('.c')`)? -/
def existsClassD (c : String) : Dom → Bool
  | .elem _ _ cls _ _ _ cs => cls.contains c || existsClassF c cs
/-- Is there an element with the given class in the forest? -/
def existsClassF (c : String) : DomForest → Bool
  | .nil => false
  | .cons d ds => existsClassD c d || existsClassF c ds
end

mutual
/-- First element with the given `id`, in document (pre-)order. -/
def firstIdD (target : String) : Dom → Option Dom
  | .elem t i cls a s x cs =>
    if i = target then some (.elem t i cls a s x cs) else firstIdF target cs
/-- First element with the given `id` in the forest, in document order. -/
def firstIdF (target : String) : DomForest → Option Dom
  | .nil => none
  | .cons d ds =>
    match firstIdD target d with
    | some r => some r
    | none => firstIdF target ds
end

mutual
/-- First element with the given class, in document order
(`$('.c').first()`). -/
def firstClassD (c : String) : Dom → Option Dom
  | .elem t i cls a s x cs =>
    if cls.contains c then some (.elem t i cls a s x cs) else firstClassF c cs
/-- First element with the given class in the forest, in document order. -/
def firstClassF (c : String) : DomForest → Option Dom
  | .nil => none
  | .cons d ds =>
    match firstClassD c d with
    | some r => some r
    | none => firstClassF c ds
end

mutual
/-- Apply `f` to the first (document-order) element with the given `id`,
leaving the document unchanged when no element matches. -/
def updIdD (target : String) (f : Dom → Dom) : Dom → Dom
  | .elem t i cls a s x cs =>
    if i = target then f (.elem t i cls a s x cs)
    else .elem t i cls a s x (updIdF target f cs)
/-- Apply `f` to the first element with the given `id` in the forest. -/
def updIdF (target : String) (f : Dom → Dom) : DomForest → DomForest
  | .nil => .nil
  | .cons d ds =>
    if existsIdD target d then .cons (updIdD target f d) ds
    else .cons d (updIdF target f ds)
end

mutual
/-- Apply `f` to the first (document-order) element with the given class,
leaving the document unchanged when no element matches. -/
def updClassD (c : String) (f : Dom → Dom) : Dom → Dom
  | .elem t i cls a s x cs =>
    if cls.contains c then f (.elem t i cls a s x cs)
    else .elem t i cls a s x (updClassF c f cs)
/-- Apply `f` to the first element with the given class in the forest. -/
def updClassF (c : String) (f : Dom → Dom) : DomForest → DomForest
  | .nil => .nil
  | .cons d ds =>
    if existsClassD c d then .cons (updClassD c f d) ds
    else .cons d (updClassF c f ds)
end

/-- Append a tree at the end of a forest (jQuery `.append`). -/
def appendF : DomForest → Dom → DomForest
  | .nil, b => .cons b .nil
  | .cons d ds, b => .cons d (appendF ds b)

/-- Append a new last child `b` to an element. -/
def Dom.appendChild : Dom → Dom → Dom
  | .elem t i cls a s x cs, b => .elem t i cls a s x (appendF cs b)

mutual
/-- Insert a copy of `b` immediately before every element of the subtree
that carries class `c` (jQuery `$container.before($btn)`, where
`$container` holds every `.find` match). -/
def insBeforeD (c : String) (b : Dom) : Dom → Dom
  | .elem t i cls a s x cs => .elem t i cls a s x (insBeforeF c b cs)
/-- Insert a copy of `b` immediately before every class-`c` element of the
forest, recursively. -/
def insBeforeF (c : String) (b : Dom) : DomForest → DomForest
  | .nil => .nil
  | .cons d ds =>
    if d.hasClass c then .cons b (.cons (insBeforeD c b d) (insBeforeF c b ds))
    else .cons (insBeforeD c b d) (insBeforeF c b ds)
end

/-- The id the script gives the download button. -/
def btnId : String := "btn-download-wiki-pdf"

/-- The anchor element built by `add_download_pdf_button`:
`$('<a>')` with id `btn-download-wiki-pdf`, `href` = the download URL,
`target="_blank"`, `rel="noopener noreferrer"`, classes
`navbar-link mr-2 d-print-none`, inline styles for no-wrap, bold and
pointer cursor, and text `Download PDF`. -/
def mkButton (url : String) : Dom :=
  .elem "a" btnId ["navbar-link", "mr-2", "d-print-none"]
    [("href", url), ("target", "_blank"), ("rel", "noopener noreferrer")]
    [("white-space", "nowrap"), ("font-weight", "bold"), ("cursor", "pointer")]
    "Download PDF" .nil

/-- The creation branch, as a transformation of the first `.navbar-nav`
element: if `$navbar.find('.sun-moon-container')` matches, insert the
button before the container(s); otherwise `$navbar.append($btn)`. -/
def insertButtonInto (url : String) (nav : Dom) : Dom :=
  if existsClassF "sun-moon-container" nav.getChildren then
    insBeforeD "sun-moon-container" (mkButton url) nav
  else
    nav.appendChild (mkButton url)

/-- Embedding of `add_download_pdf_button` as a pure transformation of the
document, parameterised by `window.location.pathname`:
compute the route and URL; if `#btn-download-wiki-pdf` exists, refresh its
`href` and return; otherwise, if a `.navbar-nav` exists, insert the new
button into the first one; otherwise return the document unchanged. -/
def add_download_pdf_button (pathname : String) (doc : Dom) : Dom :=
  let url := download_url (current_route pathname)
  if existsIdD btnId doc then
    updIdD btnId (Dom.setHref url) doc
  else if existsClassD "navbar-nav" doc then
    updClassD "navbar-nav" (insertButtonInto url) doc
  else
    doc

/-- A task scheduled with `setTimeout`. -/
inductive ScheduledTask : Type where
  | insertButtonAfter (delayMs : Nat) : ScheduledTask
  deriving DecidableEq

/-- Embedding of the `frappe.ready` callback: it mutates nothing itself;
if `$('.wiki-content').length > 0` it schedules
`setTimeout(add_download_pdf_button, 500)`, otherwise nothing.  The result
is the (unchanged) document paired with the list of scheduled tasks. -/
def frappe_ready (doc : Dom) : Dom × List ScheduledTask :=
  if existsClassD "wiki-content" doc then
    (doc, [ScheduledTask.insertButtonAfter 500])
  else
    (doc, [])

mutual
/-- For the first (document-order) element of the forest satisfying `p`,
return its immediately preceding sibling (`some none` when it is the first
child of its parent); `none` when no element matches. -/
def prevSibF (p : Dom → Bool) (prev : Option Dom) : DomForest → Option (Option Dom)
  | .nil => none
  | .cons d ds =>
    if p d then some prev
    else
      match prevSibD p d with
      | some r => some r
      | none => prevSibF p (some d) ds
/-- Search the children of `d` for the first element satisfying `p` and
return its immediately preceding sibling. -/
def prevSibD (p : Dom → Bool) : Dom → Option (Option Dom)
  | .elem _ _ _ _ _ _ cs => prevSibF p none cs
end

/-- `href` of the first element carrying the button id, when present. -/
def hrefOfFirstId (target : String) (doc : Dom) : Option String :=
  match firstIdD target doc with
  | some d => lookupAttr d.getAttrs "href"
  | none => none

/-- The document with the `href` attribute dropped from the first element
carrying the given id (used to state "no other mutation happened"). -/
def dropHrefFirstId (target : String) (doc : Dom) : Dom :=
  updIdD target Dom.dropHref doc

/-! ## Helper lemmas: attribute lists -/

theorem lookupAttr_setAttr (a : List (String × String)) (k v : String) :
    lookupAttr (setAttr a k v) k = some v := by
  induction a with
  | nil => simp [setAttr, lookupAttr]
  | cons kv rest ih =>
    obtain ⟨k2, v2⟩ := kv
    by_cases h : k2 = k <;> simp [setAttr, lookupAttr, h, ih]

theorem eraseAttr_setAttr (a : List (String × String)) (k v : String) :
    eraseAttr (setAttr a k v) k = eraseAttr a k := by
  induction a with
  | nil => simp [setAttr, eraseAttr]
  | cons kv rest ih =>
    obtain ⟨k2, v2⟩ := kv
    by_cases h : k2 = k <;> simp [setAttr, eraseAttr, h, ih]

theorem setAttr_setAttr (a : List (String × String)) (k v : String) :
    setAttr (setAttr a k v) k v = setAttr a k v := by
  induction a with
  | nil => simp [setAttr]
  | cons kv rest ih =>
    obtain ⟨k2, v2⟩ := kv
    by_cases h : k2 = k <;> simp [setAttr, h, ih]

/-! ## Helper lemmas: `setHref` and `dropHref` keep everything but the
attribute list -/

theorem setHref_getId (u : String) (d : Dom) :
    (Dom.setHref u d).getId = d.getId := by
  cases d; rfl

theorem setHref_getChildren (u : String) (d : Dom) :
    (Dom.setHref u d).getChildren = d.getChildren := by
  cases d; rfl

theorem existsIdD_setHref (t u : String) (d : Dom) :
    existsIdD t (Dom.setHref u d) = existsIdD t d := by
  cases d; rfl

theorem countIdD_setHref (t u : String) (d : Dom) :
    countIdD t (Dom.setHref u d) = countIdD t d := by
  cases d; rfl

theorem dropHref_setHref (u : String) (d : Dom) :
    Dom.dropHref (Dom.setHref u d) = Dom.dropHref d := by
  cases d with
  | elem tg i cls a s x cs => simp [Dom.setHref, Dom.dropHref, eraseAttr_setAttr]

theorem setHref_setHref (u : String) (d : Dom) :
    Dom.setHref u (Dom.setHref u d) = Dom.setHref u d := by
  cases d with
  | elem tg i cls a s x cs => simp [Dom.setHref, setAttr_setAttr]

/-! ## Helper lemmas: updating the first element with a given id -/

mutual
theorem countIdD_updIdD (t : String) (f : Dom → Dom)
    (hf : ∀ e, countIdD t (f e) = countIdD t e) :
    ∀ d : Dom, countIdD t (updIdD t f d) = countIdD t d
  | .elem tg i cls a s x cs => by
    by_cases h : i = t
    · simp [updIdD, h, hf]
    · simp [updIdD, h, countIdD, countIdF_updIdF t f hf cs]
theorem countIdF_updIdF (t : String) (f : Dom → Dom)
    (hf : ∀ e, countIdD t (f e) = countIdD t e) :
    ∀ cs : DomForest, countIdF t (updIdF t f cs) = countIdF t cs
  | .nil => rfl
  | .cons d ds => by
    by_cases h : existsIdD t d
    · simp [updIdF, h, countIdF, countIdD_updIdD t f hf d]
    · simp [updIdF, h, countIdF, countIdF_updIdF t f hf ds]
end

mutual
theorem existsIdD_updIdD (t : String) (f : Dom → Dom)
    (hf : ∀ e, existsIdD t (f e) = existsIdD t e) :
    ∀ d : Dom, existsIdD t (updIdD t f d) = existsIdD t d
  | .elem tg i cls a s x cs => by
    by_cases h : i = t
    · simp [updIdD, h, hf]
    · simp [updIdD, h, existsIdD, existsIdF_updIdF t f hf cs]
theorem existsIdF_updIdF (t : String) (f : Dom → Dom)
    (hf : ∀ e, existsIdD t (f e) = existsIdD t e) :
    ∀ cs : DomForest, existsIdF t (updIdF t f cs) = existsIdF t cs
  | .nil => rfl
  | .cons d ds => by
    by_cases h : existsIdD t d
    · simp [updIdF, h, existsIdF, existsIdD_updIdD t f hf d]
    · simp [updIdF, h, existsIdF, existsIdF_updIdF t f hf ds]
end

mutual
theorem firstIdD_eq_none (t : String) :
    ∀ d : Dom, existsIdD t d = false → firstIdD t d = none
  | .elem tg i cls a s x cs => by
    intro h
    simp only [existsIdD, Bool.or_eq_false_iff, decide_eq_false_iff_not] at h
    simp [firstIdD, h.1, firstIdF_eq_none t cs h.2]
theorem firstIdF_eq_none (t : String) :
    ∀ cs : DomForest, existsIdF t cs = false → firstIdF t cs = none
  | .nil => by intro _; rfl
  | .cons d ds => by
    intro h
    simp only [existsIdF, Bool.or_eq_false_iff] at h
    simp [firstIdF, firstIdD_eq_none t d h.1, firstIdF_eq_none t ds h.2]
end

mutual
theorem firstClassD_eq_none (c : String) :
    ∀ d : Dom, existsClassD c d = false → firstClassD c d = none
  | .elem tg i cls a s x cs => by
    intro h
    simp only [existsClassD, Bool.or_eq_false_iff] at h
    have h1 : c ∉ cls := by simpa using h.1
    simp [firstClassD, h1, firstClassF_eq_none c cs h.2]
theorem firstClassF_eq_none (c : String) :
    ∀ cs : DomForest, existsClassF c cs = false → firstClassF c cs = none
  | .nil => by intro _; rfl
  | .cons d ds => by
    intro h
    simp only [existsClassF, Bool.or_eq_false_iff] at h
    simp [firstClassF, firstClassD_eq_none c d h.1, firstClassF_eq_none c ds h.2]
end

mutual
theorem hrefOfFirst_updIdD (t url : String) :
    ∀ d : Dom, existsIdD t d = true →
      ∃ e, firstIdD t (updIdD t (Dom.setHref url) d) = some e ∧
        lookupAttr e.getAttrs "href" = some url
  | .elem tg i cls a s x cs => by
    intro h
    by_cases hi : i = t
    · refine ⟨.elem tg i cls (setAttr a "href" url) s x cs, ?_, ?_⟩
      · simp [updIdD, hi, Dom.setHref, firstIdD]
      · simp [Dom.getAttrs, lookupAttr_setAttr]
    · simp only [existsIdD, Bool.or_eq_true, decide_eq_true_eq] at h
      rcases h with h | h
      · exact absurd h hi
      · obtain ⟨e, he, hl⟩ := hrefOfFirst_updIdF t url cs h
        exact ⟨e, by simp [updIdD, hi, firstIdD, he], hl⟩
theorem hrefOfFirst_updIdF (t url : String) :
    ∀ cs : DomForest, existsIdF t cs = true →
      ∃ e, firstIdF t (updIdF t (Dom.setHref url) cs) = some e ∧
        lookupAttr e.getAttrs "href" = some url
  | .nil => by intro h; simp [existsIdF] at h
  | .cons d ds => by
    intro h
    by_cases hd : existsIdD t d
    · obtain ⟨e, he, hl⟩ := hrefOfFirst_updIdD t url d hd
      exact ⟨e, by simp [updIdF, hd, firstIdF, he], hl⟩
    · simp only [existsIdF, Bool.or_eq_true] at h
      rcases h with h | h
      · exact absurd h hd
      · obtain ⟨e, he, hl⟩ := hrefOfFirst_updIdF t url ds h
        refine ⟨e, ?_, hl⟩
        have hnone : firstIdD t d = none :=
          firstIdD_eq_none t d (by simpa using hd)
        simp [updIdF, hd, firstIdF, hnone, he]
end

mutual
theorem updIdD_comp (t : String) (f g h : Dom → Dom)
    (hfg : ∀ e, g (f e) = h e)
    (hid : ∀ e, (f e).getId = e.getId)
    (hpres : ∀ e, existsIdD t (f e) = existsIdD t e) :
    ∀ d : Dom, updIdD t g (updIdD t f d) = updIdD t h d
  | .elem tg i cls a s x cs => by
    by_cases hi : i = t
    · subst hi
      have h1 : updIdD i f (Dom.elem tg i cls a s x cs) =
          f (Dom.elem tg i cls a s x cs) := by simp [updIdD]
      have h2 : updIdD i h (Dom.elem tg i cls a s x cs) =
          h (Dom.elem tg i cls a s x cs) := by simp [updIdD]
      rw [h1, h2]
      rcases hfe : f (Dom.elem tg i cls a s x cs) with ⟨tg2, i2, cls2, a2, s2, x2, cs2⟩
      have hfid : i2 = i := by
        have hh := hid (Dom.elem tg i cls a s x cs)
        rw [hfe] at hh
        simpa [Dom.getId] using hh
      have hg : g (Dom.elem tg2 i2 cls2 a2 s2 x2 cs2) =
          h (Dom.elem tg i cls a s x cs) := by
        rw [← hfe]; exact hfg _
      subst hfid
      simp [updIdD, hg]
    · simp [updIdD, hi, updIdF_comp t f g h hfg hid hpres cs]
theorem updIdF_comp (t : String) (f g h : Dom → Dom)
    (hfg : ∀ e, g (f e) = h e)
    (hid : ∀ e, (f e).getId = e.getId)
    (hpres : ∀ e, existsIdD t (f e) = existsIdD t e) :
    ∀ cs : DomForest, updIdF t g (updIdF t f cs) = updIdF t h cs
  | .nil => rfl
  | .cons d ds => by
    by_cases hd : existsIdD t d
    · have : existsIdD t (updIdD t f d) = true :=
        (existsIdD_updIdD t f hpres d).trans hd
      simp [updIdF, hd, this, updIdD_comp t f g h hfg hid hpres d]
    · have : existsIdD t d = false := by simpa using hd
      simp [updIdF, hd, this, updIdF_comp t f g h hfg hid hpres ds]
end

/-! ## Helper lemmas: accessor forms of the search functions -/

theorem firstClassD_eq (c : String) (d : Dom) :
    firstClassD c d =
      if d.getClasses.contains c then some d else firstClassF c d.getChildren := by
  cases d; rfl

theorem firstIdD_eq (t : String) (d : Dom) :
    firstIdD t d = if d.getId = t then some d else firstIdF t d.getChildren := by
  cases d; rfl

theorem existsIdD_eq (t : String) (d : Dom) :
    existsIdD t d = (decide (d.getId = t) || existsIdF t d.getChildren) := by
  cases d; rfl

theorem existsClassD_eq (c : String) (d : Dom) :
    existsClassD c d = (d.getClasses.contains c || existsClassF c d.getChildren) := by
  cases d; rfl

theorem prevSibD_eq (p : Dom → Bool) (d : Dom) :
    prevSibD p d = prevSibF p none d.getChildren := by
  cases d; rfl

theorem hasClass_eq (c : String) (d : Dom) :
    Dom.hasClass c d = d.getClasses.contains c := rfl

/-! ## Helper lemmas: existence implies a first match -/

mutual
theorem firstClassD_isSome (c : String) :
    ∀ d : Dom, existsClassD c d = true → ∃ nav, firstClassD c d = some nav
  | .elem tg i cls a s x cs => by
    intro h
    by_cases hc : cls.contains c
    · have hc2 : c ∈ cls := by simpa using hc
      exact ⟨.elem tg i cls a s x cs, by simp [firstClassD, hc2]⟩
    · have hc2 : c ∉ cls := by simpa using hc
      simp only [existsClassD, Bool.or_eq_true] at h
      rcases h with h | h
      · exact absurd h hc
      · obtain ⟨nav, hnav⟩ := firstClassF_isSome c cs h
        exact ⟨nav, by simp [firstClassD, hc2, hnav]⟩
theorem firstClassF_isSome (c : String) :
    ∀ cs : DomForest, existsClassF c cs = true → ∃ nav, firstClassF c cs = some nav
  | .nil => by intro h; simp [existsClassF] at h
  | .cons d ds => by
    intro h
    by_cases hd : existsClassD c d
    · obtain ⟨nav, hnav⟩ := firstClassD_isSome c d hd
      exact ⟨nav, by simp [firstClassF, hnav]⟩
    · simp only [existsClassF, Bool.or_eq_true] at h
      rcases h with h | h
      · exact absurd h hd
      · obtain ⟨nav, hnav⟩ := firstClassF_isSome c ds h
        have hn : firstClassD c d = none := firstClassD_eq_none c d (by simpa using hd)
        exact ⟨nav, by simp [firstClassF, hn, hnav]⟩
end

/-! ## Helper lemmas: the subtree returned by the first-class search
contains no button when the whole document contains none -/

mutual
theorem existsId_of_firstClassD (c t : String) :
    ∀ d nav : Dom, firstClassD c d = some nav → existsIdD t d = false →
      existsIdD t nav = false
  | .elem tg i cls a s x cs, nav => by
    intro hfirst hex
    by_cases hc : cls.contains c
    · simp only [firstClassD, hc, if_true, Option.some.injEq] at hfirst
      exact hfirst ▸ hex
    · simp only [firstClassD, hc, if_false] at hfirst
      simp only [existsIdD, Bool.or_eq_false_iff] at hex
      exact existsId_of_firstClassF c t cs nav hfirst hex.2
theorem existsId_of_firstClassF (c t : String) :
    ∀ (cs : DomForest) (nav : Dom), firstClassF c cs = some nav →
      existsIdF t cs = false → existsIdD t nav = false
  | .nil, nav => by intro h _; simp [firstClassF] at h
  | .cons d ds, nav => by
    intro hfirst hex
    simp only [existsIdF, Bool.or_eq_false_iff] at hex
    rcases hd : firstClassD c d with _ | r
    · simp only [firstClassF, hd] at hfirst
      exact existsId_of_firstClassF c t ds nav hfirst hex.2
    · simp only [firstClassF, hd, Option.some.injEq] at hfirst
      exact hfirst ▸ existsId_of_firstClassD c t d r hd hex.1
end

/-! ## Helper lemmas: updating the first element with a given class -/

mutual
theorem firstClassD_updClassD (c : String) (f : Dom → Dom)
    (hcls : ∀ e, (f e).getClasses = e.getClasses) :
    ∀ d : Dom, firstClassD c (updClassD c f d) = (firstClassD c d).map f
  | .elem tg i cls a s x cs => by
    by_cases hc : cls.contains c
    · have hc2 : c ∈ cls := by simpa using hc
      have h1 : updClassD c f (Dom.elem tg i cls a s x cs) =
          f (Dom.elem tg i cls a s x cs) := by simp [updClassD, hc2]
      have h2 : firstClassD c (f (Dom.elem tg i cls a s x cs)) =
          some (f (Dom.elem tg i cls a s x cs)) := by
        rw [firstClassD_eq, hcls]
        simp [Dom.getClasses, hc2]
      rw [h1, h2]
      simp [firstClassD, hc2]
    · have hc2 : c ∉ cls := by simpa using hc
      simp [updClassD, hc2, firstClassD, firstClassF_updClassF c f hcls cs]
theorem firstClassF_updClassF (c : String) (f : Dom → Dom)
    (hcls : ∀ e, (f e).getClasses = e.getClasses) :
    ∀ cs : DomForest, firstClassF c (updClassF c f cs) = (firstClassF c cs).map f
  | .nil => rfl
  | .cons d ds => by
    by_cases hd : existsClassD c d
    · obtain ⟨nav, hnav⟩ := firstClassD_isSome c d hd
      have hupd := firstClassD_updClassD c f hcls d
      rw [hnav] at hupd
      simp [updClassF, hd, firstClassF, hupd, hnav]
    · have hn : firstClassD c d = none := firstClassD_eq_none c d (by simpa using hd)
      simp [updClassF, hd, firstClassF, hn, firstClassF_updClassF c f hcls ds]
end

mutual
theorem firstId_updClassD (c t : String) (f : Dom → Dom) :
    ∀ d : Dom, existsIdD t d = false →
      firstIdD t (updClassD c f d) =
        (firstClassD c d).bind (fun nav => firstIdD t (f nav))
  | .elem tg i cls a s x cs => by
    intro hex
    simp only [existsIdD, Bool.or_eq_false_iff, decide_eq_false_iff_not] at hex
    by_cases hc : cls.contains c
    · have hc2 : c ∈ cls := by simpa using hc
      have h1 : updClassD c f (Dom.elem tg i cls a s x cs) =
          f (Dom.elem tg i cls a s x cs) := by simp [updClassD, hc2]
      rw [h1]
      simp [firstClassD, hc2]
    · have hc2 : c ∉ cls := by simpa using hc
      simp [updClassD, hc2, firstIdD, hex.1, firstClassD,
        firstId_updClassF c t f cs hex.2]
theorem firstId_updClassF (c t : String) (f : Dom → Dom) :
    ∀ cs : DomForest, existsIdF t cs = false →
      firstIdF t (updClassF c f cs) =
        (firstClassF c cs).bind (fun nav => firstIdD t (f nav))
  | .nil => by intro _; rfl
  | .cons d ds => by
    intro hex
    simp only [existsIdF, Bool.or_eq_false_iff] at hex
    by_cases hd : existsClassD c d
    · obtain ⟨nav, hnav⟩ := firstClassD_isSome c d hd
      have hupd := firstId_updClassD c t f d hex.1
      rw [hnav, Option.some_bind] at hupd
      have hnone : firstIdF t ds = none := firstIdF_eq_none t ds hex.2
      simp only [updClassF, hd, if_true, firstIdF, hupd, firstClassF, hnav,
        Option.some_bind, hnone]
      cases firstIdD t (f nav) <;> rfl
    · have hn : firstClassD c d = none := firstClassD_eq_none c d (by simpa using hd)
      have hdnone : firstIdD t d = none := firstIdD_eq_none t d hex.1
      simp [updClassF, hd, firstIdF, hdnone, hn, firstClassF,
        firstId_updClassF c t f ds hex.2]
end

/-! ## Helper lemmas: the insertion operations preserve the host
element's own fields -/

theorem insBeforeD_getClasses (c : String) (b d : Dom) :
    (insBeforeD c b d).getClasses = d.getClasses := by
  cases d; rfl

theorem insBeforeD_getChildren (c : String) (b d : Dom) :
    (insBeforeD c b d).getChildren = insBeforeF c b d.getChildren := by
  cases d; rfl

theorem insBeforeD_getId (c : String) (b d : Dom) :
    (insBeforeD c b d).getId = d.getId := by
  cases d; rfl

theorem appendChild_getClasses (d b : Dom) :
    (d.appendChild b).getClasses = d.getClasses := by
  cases d; rfl

theorem appendChild_getChildren (d b : Dom) :
    (d.appendChild b).getChildren = appendF d.getChildren b := by
  cases d; rfl

theorem insertButtonInto_getClasses (u : String) (nav : Dom) :
    (insertButtonInto u nav).getClasses = nav.getClasses := by
  unfold insertButtonInto
  by_cases h : existsClassF "sun-moon-container" nav.getChildren
  · simp [h, insBeforeD_getClasses]
  · simp [h, appendChild_getClasses]

/-! ## Helper lemmas: locating the freshly inserted button -/

mutual
theorem firstId_insBeforeD (c t : String) (b : Dom) (hb : b.getId = t) :
    ∀ d : Dom, existsIdD t d = false →
      firstIdD t (insBeforeD c b d) =
        (if existsClassF c d.getChildren then some b else none)
  | .elem tg i cls a s x cs => by
    intro hex
    simp only [existsIdD, Bool.or_eq_false_iff, decide_eq_false_iff_not] at hex
    simp [insBeforeD, firstIdD, hex.1, Dom.getChildren,
      firstId_insBeforeF c t b hb cs hex.2]
theorem firstId_insBeforeF (c t : String) (b : Dom) (hb : b.getId = t) :
    ∀ cs : DomForest, existsIdF t cs = false →
      firstIdF t (insBeforeF c b cs) =
        (if existsClassF c cs then some b else none)
  | .nil => by intro _; simp [insBeforeF, firstIdF, existsClassF]
  | .cons d ds => by
    intro hex
    simp only [existsIdF, Bool.or_eq_false_iff] at hex
    have hbsome : firstIdD t b = some b := by
      rcases b with ⟨tb, ib, clsb, ab, sb, xb, csb⟩
      simp only [Dom.getId] at hb
      simp [firstIdD, hb]
    by_cases hd : Dom.hasClass c d
    · have hcd : existsClassD c d = true := by
        rw [existsClassD_eq, ← hasClass_eq, hd]
        rfl
      simp [insBeforeF, hd, firstIdF, hbsome, existsClassF, hcd]
    · have hd2 : Dom.hasClass c d = false := by simpa using hd
      have hD := firstId_insBeforeD c t b hb d hex.1
      by_cases hch : existsClassF c d.getChildren
      · have hcd : existsClassD c d = true := by
          rw [existsClassD_eq, hch]
          simp
        simp [insBeforeF, hd2, firstIdF, hD, hch, existsClassF, hcd]
      · have hch2 : existsClassF c d.getChildren = false := by simpa using hch
        have hcd : existsClassD c d = false := by
          rw [existsClassD_eq, hch2, ← hasClass_eq, hd2]
          rfl
        simp [insBeforeF, hd2, firstIdF, hD, hch2, existsClassF, hcd,
          firstId_insBeforeF c t b hb ds hex.2]
end

theorem firstId_appendF (t : String) (b : Dom) (hb : b.getId = t) :
    ∀ cs : DomForest, existsIdF t cs = false → firstIdF t (appendF cs b) = some b
  | .nil => by
    intro _
    rcases b with ⟨tb, ib, clsb, ab, sb, xb, csb⟩
    simp only [Dom.getId] at hb
    simp [appendF, firstIdF, firstIdD, hb]
  | .cons d ds => by
    intro hex
    simp only [existsIdF, Bool.or_eq_false_iff] at hex
    have hdnone : firstIdD t d = none := firstIdD_eq_none t d hex.1
    simp [appendF, firstIdF, hdnone, firstId_appendF t b hb ds hex.2]

theorem firstId_appendChild (t : String) (b d : Dom) (hb : b.getId = t)
    (hex : existsIdD t d = false) : firstIdD t (d.appendChild b) = some b := by
  rcases d with ⟨tg, i, cls, a, s, x, cs⟩
  simp only [existsIdD, Bool.or_eq_false_iff, decide_eq_false_iff_not] at hex
  simp [Dom.appendChild, firstIdD, hex.1, firstId_appendF t b hb cs hex.2]

/-! ## Helper lemmas: insertion before the companion container -/

mutual
theorem insBeforeD_id (c : String) (b : Dom) :
    ∀ d : Dom, existsClassF c d.getChildren = false → insBeforeD c b d = d
  | .elem tg i cls a s x cs => by
    intro h
    simp only [Dom.getChildren] at h
    simp [insBeforeD, insBeforeF_id c b cs h]
theorem insBeforeF_id (c : String) (b : Dom) :
    ∀ cs : DomForest, existsClassF c cs = false → insBeforeF c b cs = cs
  | .nil => by intro _; rfl
  | .cons d ds => by
    intro h
    simp only [existsClassF, Bool.or_eq_false_iff] at h
    have h1 := h.1
    rw [existsClassD_eq] at h1
    simp only [Bool.or_eq_false_iff] at h1
    have hd : Dom.hasClass c d = false := by rw [hasClass_eq]; exact h1.1
    simp [insBeforeF, hd, insBeforeD_id c b d h1.2, insBeforeF_id c b ds h.2]
end

mutual
theorem prevSibD_none (c : String) :
    ∀ d : Dom, existsClassF c d.getChildren = false →
      prevSibD (Dom.hasClass c) d = none
  | .elem tg i cls a s x cs => by
    intro h
    simp only [Dom.getChildren] at h
    simp [prevSibD, prevSibF_none c cs h none]
theorem prevSibF_none (c : String) :
    ∀ cs : DomForest, existsClassF c cs = false →
      ∀ prev, prevSibF (Dom.hasClass c) prev cs = none
  | .nil => by intro _ _; rfl
  | .cons d ds => by
    intro h prev
    simp only [existsClassF, Bool.or_eq_false_iff] at h
    have h1 := h.1
    rw [existsClassD_eq] at h1
    simp only [Bool.or_eq_false_iff] at h1
    have hd : Dom.hasClass c d = false := by rw [hasClass_eq]; exact h1.1
    have hDnone := prevSibD_none c d h1.2
    simp [prevSibF, hd, hDnone, prevSibF_none c ds h.2 (some d)]
end

mutual
theorem prevSib_insBeforeD (c : String) (b : Dom)
    (hb : Dom.hasClass c b = false) (hbc : b.getChildren = .nil) :
    ∀ d : Dom, existsClassF c d.getChildren = true →
      prevSibD (Dom.hasClass c) (insBeforeD c b d) = some (some b)
  | .elem tg i cls a s x cs => by
    intro h
    simp only [Dom.getChildren] at h
    simp [insBeforeD, prevSibD, prevSib_insBeforeF c b hb hbc cs h none]
theorem prevSib_insBeforeF (c : String) (b : Dom)
    (hb : Dom.hasClass c b = false) (hbc : b.getChildren = .nil) :
    ∀ cs : DomForest, existsClassF c cs = true →
      ∀ prev, prevSibF (Dom.hasClass c) prev (insBeforeF c b cs) = some (some b)
  | .nil => by intro h; simp [existsClassF] at h
  | .cons d ds => by
    intro h prev
    have hbnone : prevSibD (Dom.hasClass c) b = none := by
      rw [prevSibD_eq, hbc]
      rfl
    by_cases hd : Dom.hasClass c d
    · have hclsIns : Dom.hasClass c (insBeforeD c b d) = true := by
        rw [hasClass_eq, insBeforeD_getClasses, ← hasClass_eq]
        exact hd
      simp [insBeforeF, hd, prevSibF, hb, hbnone, hclsIns]
    · have hd2 : Dom.hasClass c d = false := by simpa using hd
      by_cases hch : existsClassF c d.getChildren
      · have hins : prevSibD (Dom.hasClass c) (insBeforeD c b d) = some (some b) :=
          prevSib_insBeforeD c b hb hbc d hch
        have hdIns : Dom.hasClass c (insBeforeD c b d) = false := by
          rw [hasClass_eq, insBeforeD_getClasses, ← hasClass_eq]
          exact hd2
        simp [insBeforeF, hd2, prevSibF, hdIns, hins]
      · have hch2 : existsClassF c d.getChildren = false := by simpa using hch
        have hcd : existsClassD c d = false := by
          rw [existsClassD_eq, hch2, ← hasClass_eq, hd2]
          rfl
        have hdsC : existsClassF c ds = true := by
          simp only [existsClassF, hcd, Bool.false_or] at h
          exact h
        have hid : insBeforeD c b d = d := insBeforeD_id c b d hch2
        have hdnone : prevSibD (Dom.hasClass c) d = none := prevSibD_none c d hch2
        have hdIns : Dom.hasClass c (insBeforeD c b d) = false := by
          rw [hasClass_eq, insBeforeD_getClasses, ← hasClass_eq]
          exact hd2
        simp [insBeforeF, hd2, prevSibF, hid, hdnone,
          prevSib_insBeforeF c b hb hbc ds hdsC (some d)]
end

/-! ## Concrete documents used by witnesses and counterexamples -/

/-- A document with no wiki-content marker, no navbar and no button. -/
def bareDoc : Dom :=
  .elem "body" "" [] [] [] "" .nil

/-- A document whose only feature is a wiki-content marker. -/
def markerDoc : Dom :=
  .elem "body" "" [] [] [] ""
    (.cons (.elem "div" "" ["wiki-content"] [] [] "" .nil) .nil)

/-- A navbar containing one plain item and a sun-moon container. -/
def navWithContainer : Dom :=
  .elem "ul" "" ["navbar-nav"] [] [] ""
    (.cons (.elem "li" "item1" [] [] [] "Home" .nil)
      (.cons (.elem "div" "" ["sun-moon-container"] [] [] "" .nil) .nil))

/-- A navbar containing one plain item and no sun-moon container. -/
def navPlain : Dom :=
  .elem "ul" "" ["navbar-nav"] [] [] ""
    (.cons (.elem "li" "item1" [] [] [] "Home" .nil) .nil)

/-- Marker page with a navbar that holds a sun-moon container. -/
def pageWithContainer : Dom :=
  .elem "body" "" [] [] [] ""
    (.cons (.elem "div" "" ["wiki-content"] [] [] "" .nil)
      (.cons navWithContainer .nil))

/-- Marker page with a plain navbar. -/
def pagePlainNav : Dom :=
  .elem "body" "" [] [] [] ""
    (.cons (.elem "div" "" ["wiki-content"] [] [] "" .nil)
      (.cons navPlain .nil))

/-- Marker page with no navbar but a pre-existing button with a stale
`href`. -/
def pageStaleButton : Dom :=
  .elem "body" "" [] [] [] ""
    (.cons (.elem "div" "" ["wiki-content"] [] [] "" .nil)
      (.cons (.elem "a" btnId [] [("href", "stale")] [] "Download PDF" .nil) .nil))

/-- A page that has both a navbar and an existing button carrying a stale
`href`. -/
def pageNavAndButton : Dom :=
  .elem "body" "" [] [] [] ""
    (.cons (.elem "a" btnId [] [("href", "stale")] [] "Download PDF" .nil)
      (.cons navPlain .nil))

/-! ## Claims about the string computations -/

/-- Claim C1: for every browser path string (these begin with the path
separator, so the path is `'/' :: l`), the `current_route` computed by
`add_download_pdf_button` equals the path with exactly one leading
separator removed (namely `l`) and at most one trailing separator
removed: the last character is dropped exactly when the intermediate
result `l` ends with a separator. -/
theorem C1_current_route_strips_separators (l : List Char) :
    current_route ⟨'/' :: l⟩ =
      ⟨if l.getLast? = some '/' then l.dropLast else l⟩ := by
  simp [current_route, current_routeL, stripLeadingSlash, jsEndsWithSlash]

/-- Claim C2: the download URL is the fixed base path
`/api/method/wiki_pdf.pdf.download_wiki_pdf` followed by `?route=` and
the percent-encoding of the route; on the route `Main/Sub Page` the query
value is `Main%2FSub%20Page`. -/
theorem C2_download_url_percent_encoding :
    (∀ r : String, download_url r =
      "/api/method/wiki_pdf.pdf.download_wiki_pdf" ++ "?route=" ++
        encodeURIComponent r) ∧
    download_url "Main/Sub Page" =
      "/api/method/wiki_pdf.pdf.download_wiki_pdf?route=Main%2FSub%20Page" := by
  constructor
  · intro r
    have h := String.append_assoc "/api/method/wiki_pdf.pdf.download_wiki_pdf"
      "?route=" (encodeURIComponent r)
    exact h ▸ rfl
  · decide

/-- Claim C10: on the browser paths `/` and `//` the computed route is the
empty string, and the download URL for the empty route is the base path
followed by `?route=` with an empty query value; no branch of the code
rejects or special-cases the empty route. -/
theorem C10_empty_route :
    current_route "/" = "" ∧ current_route "//" = "" ∧
    download_url "" = "/api/method/wiki_pdf.pdf.download_wiki_pdf?route=" := by
  refine ⟨by decide, by decide, by decide⟩

/-! ## Claims about the page-ready flow -/

/-- Claim C5: with no wiki-content marker the ready callback leaves the
document unchanged and schedules nothing; with a marker present it leaves
the document unchanged and schedules the insertion exactly once, after
500 time units. -/
theorem C5_ready_schedules_insertion (doc : Dom) :
    (existsClassD "wiki-content" doc = false → frappe_ready doc = (doc, [])) ∧
    (existsClassD "wiki-content" doc = true →
      frappe_ready doc = (doc, [ScheduledTask.insertButtonAfter 500])) := by
  constructor <;> intro h <;> simp [frappe_ready, h]

/-- Witness for C5 at two concrete documents: a page with no marker and a
page with one. -/
theorem C5_ready_schedules_insertion_witness :
    frappe_ready bareDoc = (bareDoc, []) ∧
    frappe_ready markerDoc = (markerDoc, [ScheduledTask.insertButtonAfter 500]) :=
  ⟨(C5_ready_schedules_insertion bareDoc).1 (by decide),
   (C5_ready_schedules_insertion markerDoc).2 (by decide)⟩

/-! ## Claims about the update branch -/

/-- When the button already exists, `add_download_pdf_button` takes the
update branch. -/
theorem add_eq_updId (p : String) (doc : Dom)
    (h : existsIdD btnId doc = true) :
    add_download_pdf_button p doc =
      updIdD btnId (Dom.setHref (download_url (current_route p))) doc := by
  simp [add_download_pdf_button, h]

/-- The first element carrying the button id ends up with the freshly
computed URL as its `href` after the update branch runs. -/
theorem hrefOfFirstId_after_update (p : String) (doc : Dom)
    (h : existsIdD btnId doc = true) :
    hrefOfFirstId btnId (add_download_pdf_button p doc) =
      some (download_url (current_route p)) := by
  obtain ⟨e, he, hl⟩ :=
    hrefOfFirst_updIdD btnId (download_url (current_route p)) doc h
  rw [add_eq_updId p doc h]
  simp [hrefOfFirstId, he, hl]

/-- Claim C3: when an element with the button id already exists,
re-invoking `add_download_pdf_button` creates no second element with that
id (the count of such elements is unchanged), updates the existing
element's `href` to the freshly computed download URL, performs no other
DOM mutation (after dropping that `href`, old and new document agree),
and a second invocation right after the first changes nothing at all. -/
theorem C3_existing_button_update_idempotent (p : String) (doc : Dom)
    (h : existsIdD btnId doc = true) :
    countIdD btnId (add_download_pdf_button p doc) = countIdD btnId doc ∧
    hrefOfFirstId btnId (add_download_pdf_button p doc) =
      some (download_url (current_route p)) ∧
    dropHrefFirstId btnId (add_download_pdf_button p doc) =
      dropHrefFirstId btnId doc ∧
    add_download_pdf_button p (add_download_pdf_button p doc) =
      add_download_pdf_button p doc := by
  have hurl := add_eq_updId p doc h
  set url := download_url (current_route p) with hu
  refine ⟨?_, hrefOfFirstId_after_update p doc h, ?_, ?_⟩
  · rw [hurl]
    exact countIdD_updIdD btnId _ (fun e => countIdD_setHref btnId url e) doc
  · rw [hurl]
    exact updIdD_comp btnId (Dom.setHref url) Dom.dropHref Dom.dropHref
      (fun e => dropHref_setHref url e) (fun e => setHref_getId url e)
      (fun e => existsIdD_setHref btnId url e) doc
  · have h2 : existsIdD btnId (add_download_pdf_button p doc) = true := by
      rw [hurl]
      rw [existsIdD_updIdD btnId _ (fun e => existsIdD_setHref btnId url e) doc]
      exact h
    rw [add_eq_updId p _ h2, hurl]
    exact updIdD_comp btnId (Dom.setHref url) (Dom.setHref url) (Dom.setHref url)
      (fun e => setHref_setHref url e) (fun e => setHref_getId url e)
      (fun e => existsIdD_setHref btnId url e) doc

/-- Witness for C3 at a page that has a navbar and a button with a stale
`href`. -/
theorem C3_existing_button_update_idempotent_witness :
    existsIdD btnId pageNavAndButton = true ∧
    (countIdD btnId (add_download_pdf_button "/wiki/home" pageNavAndButton) =
        countIdD btnId pageNavAndButton ∧
      hrefOfFirstId btnId (add_download_pdf_button "/wiki/home" pageNavAndButton) =
        some (download_url (current_route "/wiki/home")) ∧
      dropHrefFirstId btnId (add_download_pdf_button "/wiki/home" pageNavAndButton) =
        dropHrefFirstId btnId pageNavAndButton ∧
      add_download_pdf_button "/wiki/home"
          (add_download_pdf_button "/wiki/home" pageNavAndButton) =
        add_download_pdf_button "/wiki/home" pageNavAndButton) :=
  ⟨by decide,
   C3_existing_button_update_idempotent "/wiki/home" pageNavAndButton (by decide)⟩

/-- Claim C9: whenever an element with the button id exists anywhere in
the document, `add_download_pdf_button` refreshes its `href` and touches
nothing else — with no assumption about a navigation bar, because the
update branch returns before the navbar lookup is reached.  The witness
instantiates this on a document containing no navbar at all. -/
theorem C9_update_ignores_navbar (p : String) (doc : Dom)
    (h : existsIdD btnId doc = true) :
    hrefOfFirstId btnId (add_download_pdf_button p doc) =
      some (download_url (current_route p)) ∧
    countIdD btnId (add_download_pdf_button p doc) = countIdD btnId doc ∧
    dropHrefFirstId btnId (add_download_pdf_button p doc) =
      dropHrefFirstId btnId doc := by
  have hurl := add_eq_updId p doc h
  set url := download_url (current_route p) with hu
  refine ⟨hrefOfFirstId_after_update p doc h, ?_, ?_⟩
  · rw [hurl]
    exact countIdD_updIdD btnId _ (fun e => countIdD_setHref btnId url e) doc
  · rw [hurl]
    exact updIdD_comp btnId (Dom.setHref url) Dom.dropHref Dom.dropHref
      (fun e => dropHref_setHref url e) (fun e => setHref_getId url e)
      (fun e => existsIdD_setHref btnId url e) doc

/-- Witness for C9 at a page that has a stale button and no navbar
element whatsoever. -/
theorem C9_update_ignores_navbar_witness :
    existsIdD btnId pageStaleButton = true ∧
    existsClassD "navbar-nav" pageStaleButton = false ∧
    (hrefOfFirstId btnId (add_download_pdf_button "/wiki/home" pageStaleButton) =
        some (download_url (current_route "/wiki/home")) ∧
      countIdD btnId (add_download_pdf_button "/wiki/home" pageStaleButton) =
        countIdD btnId pageStaleButton ∧
      dropHrefFirstId btnId (add_download_pdf_button "/wiki/home" pageStaleButton) =
        dropHrefFirstId btnId pageStaleButton) :=
  ⟨by decide, by decide,
   C9_update_ignores_navbar "/wiki/home" pageStaleButton (by decide)⟩

/-! ## Claim C6: missing navbar -/

/-- Counterexample to claim C6 as stated: a document with a wiki-content
marker, no navbar, but a pre-existing button with a stale `href`.  The
update branch runs before the navbar lookup, so invoking the insertion
logic mutates the document (it rewrites the stale `href`), contradicting
"zero DOM mutations" for every such document state. -/
theorem C6_counterexample :
    existsClassD "wiki-content" pageStaleButton = true ∧
    existsClassD "navbar-nav" pageStaleButton = false ∧
    add_download_pdf_button "/wiki/home" pageStaleButton ≠ pageStaleButton := by
  refine ⟨by decide, by decide, by decide⟩

/-- Claim C6 (amended): for every document with a wiki-content marker, no
element matching the navbar selector, and no pre-existing button element,
invoking the insertion logic leaves the document exactly as it was: no
button is created and nothing is mutated. -/
theorem C6_no_navbar_no_mutation (p : String) (doc : Dom)
    (hmarker : existsClassD "wiki-content" doc = true)
    (hnav : existsClassD "navbar-nav" doc = false)
    (hbtn : existsIdD btnId doc = false) :
    add_download_pdf_button p doc = doc := by
  simp [add_download_pdf_button, hnav, hbtn]

/-- Witness for the amended C6 at a marker-only page. -/
theorem C6_no_navbar_no_mutation_witness :
    add_download_pdf_button "/wiki/home" markerDoc = markerDoc :=
  C6_no_navbar_no_mutation "/wiki/home" markerDoc (by decide) (by decide) (by decide)

/-! ## Claims about the creation branch -/

/-- Claim C4: when no button exists and a navbar matches, the button is
inserted into the first matching navbar: immediately before the companion
`.sun-moon-container` widget when one exists among the navbar's
descendants, and as the navbar's last child otherwise. -/
theorem C4_insertion_position (p : String) (doc nav : Dom)
    (hbtn : existsIdD btnId doc = false)
    (hnav : firstClassD "navbar-nav" doc = some nav) :
    ∃ nav2,
      firstClassD "navbar-nav" (add_download_pdf_button p doc) = some nav2 ∧
      (existsClassF "sun-moon-container" nav.getChildren = true →
        prevSibF (Dom.hasClass "sun-moon-container") none nav2.getChildren =
          some (some (mkButton (download_url (current_route p))))) ∧
      (existsClassF "sun-moon-container" nav.getChildren = false →
        nav2.getChildren =
          appendF nav.getChildren (mkButton (download_url (current_route p)))) := by
  set url := download_url (current_route p) with hu
  have hcls : existsClassD "navbar-nav" doc = true := by
    by_contra hx
    have hx2 : existsClassD "navbar-nav" doc = false := by simpa using hx
    rw [firstClassD_eq_none "navbar-nav" doc hx2] at hnav
    cases hnav
  have hadd : add_download_pdf_button p doc =
      updClassD "navbar-nav" (insertButtonInto url) doc := by
    simp [add_download_pdf_button, hbtn, hcls]
  have hfirst := firstClassD_updClassD "navbar-nav" (insertButtonInto url)
      (fun e => insertButtonInto_getClasses url e) doc
  rw [hnav] at hfirst
  refine ⟨insertButtonInto url nav, ?_, ?_, ?_⟩
  · rw [hadd, hfirst]
    rfl
  · intro hsmc
    have hb : Dom.hasClass "sun-moon-container" (mkButton url) = false := rfl
    have hbc : (mkButton url).getChildren = .nil := rfl
    have h1 : insertButtonInto url nav =
        insBeforeD "sun-moon-container" (mkButton url) nav := by
      unfold insertButtonInto
      rw [if_pos hsmc]
    rw [h1, insBeforeD_getChildren]
    exact prevSib_insBeforeF "sun-moon-container" (mkButton url) hb hbc
      nav.getChildren hsmc none
  · intro hsmc
    have h1 : insertButtonInto url nav = nav.appendChild (mkButton url) := by
      unfold insertButtonInto
      rw [if_neg (by simp [hsmc])]
    rw [h1, appendChild_getChildren]

/-- Witness for C4 at a page whose navbar contains a sun-moon container. -/
theorem C4_insertion_position_witness :
    existsIdD btnId pageWithContainer = false ∧
    firstClassD "navbar-nav" pageWithContainer = some navWithContainer ∧
    (∃ nav2,
      firstClassD "navbar-nav"
          (add_download_pdf_button "/wiki/home" pageWithContainer) = some nav2 ∧
      (existsClassF "sun-moon-container" navWithContainer.getChildren = true →
        prevSibF (Dom.hasClass "sun-moon-container") none nav2.getChildren =
          some (some (mkButton (download_url (current_route "/wiki/home"))))) ∧
      (existsClassF "sun-moon-container" navWithContainer.getChildren = false →
        nav2.getChildren = appendF navWithContainer.getChildren
          (mkButton (download_url (current_route "/wiki/home"))))) :=
  ⟨by decide, by decide,
   C4_insertion_position "/wiki/home" pageWithContainer navWithContainer
     (by decide) (by decide)⟩

/-- Claim C7: whenever the button exists after an invocation of
`add_download_pdf_button`, its `href` is the download URL computed from
the route current at that invocation — both the update branch and the
creation branch establish this. -/
theorem C7_href_reflects_current_route (p : String) (doc : Dom)
    (h : existsIdD btnId (add_download_pdf_button p doc) = true) :
    hrefOfFirstId btnId (add_download_pdf_button p doc) =
      some (download_url (current_route p)) := by
  by_cases h1 : existsIdD btnId doc
  · exact hrefOfFirstId_after_update p doc h1
  · have h1f : existsIdD btnId doc = false := by simpa using h1
    by_cases h2 : existsClassD "navbar-nav" doc
    · set url := download_url (current_route p) with hu
      have hadd : add_download_pdf_button p doc =
          updClassD "navbar-nav" (insertButtonInto url) doc := by
        simp [add_download_pdf_button, h1f, h2]
      obtain ⟨nav, hnav⟩ := firstClassD_isSome "navbar-nav" doc h2
      have hnavNoBtn : existsIdD btnId nav = false :=
        existsId_of_firstClassD "navbar-nav" btnId doc nav hnav h1f
      have hfid := firstId_updClassD "navbar-nav" btnId (insertButtonInto url) doc h1f
      rw [hnav, Option.some_bind] at hfid
      have hbId : (mkButton url).getId = btnId := rfl
      have hbtnFirst : firstIdD btnId (insertButtonInto url nav) =
          some (mkButton url) := by
        unfold insertButtonInto
        by_cases hsmc : existsClassF "sun-moon-container" nav.getChildren
        · rw [if_pos hsmc,
            firstId_insBeforeD "sun-moon-container" btnId (mkButton url) hbId nav hnavNoBtn,
            if_pos hsmc]
        · rw [if_neg hsmc]
          exact firstId_appendChild btnId (mkButton url) nav hbId hnavNoBtn
      rw [hadd]
      simp [hrefOfFirstId, hfid, hbtnFirst, mkButton, Dom.getAttrs, lookupAttr]
    · have h2f : existsClassD "navbar-nav" doc = false := by simpa using h2
      have hid : add_download_pdf_button p doc = doc := by
        simp [add_download_pdf_button, h1f, h2f]
      rw [hid] at h
      exact absurd h h1

/-- Witness for C7 at a page where the invocation creates the button in a
plain navbar. -/
theorem C7_href_reflects_current_route_witness :
    existsIdD btnId (add_download_pdf_button "/x" pagePlainNav) = true ∧
    hrefOfFirstId btnId (add_download_pdf_button "/x" pagePlainNav) =
      some (download_url (current_route "/x")) :=
  ⟨by decide, C7_href_reflects_current_route "/x" pagePlainNav (by decide)⟩

/-- Claim C8: the anchor built by the insertion logic carries the id
`btn-download-wiki-pdf`, text `Download PDF`, the navbar-link and
print-suppression classes, the no-wrap/bold/pointer inline styles, and —
matching the revision embedded here — `target="_blank"` and
`rel="noopener noreferrer"`; moreover the same code path always refreshes
an existing button's `href` to the freshly computed URL. -/
theorem C8_button_contract :
    (∀ url : String,
      (mkButton url).getId = "btn-download-wiki-pdf" ∧
      (mkButton url).getText = "Download PDF" ∧
      (mkButton url).getClasses = ["navbar-link", "mr-2", "d-print-none"] ∧
      (mkButton url).getStyles =
        [("white-space", "nowrap"), ("font-weight", "bold"), ("cursor", "pointer")] ∧
      lookupAttr (mkButton url).getAttrs "href" = some url ∧
      lookupAttr (mkButton url).getAttrs "target" = some "_blank" ∧
      lookupAttr (mkButton url).getAttrs "rel" = some "noopener noreferrer") ∧
    (∀ p doc, existsIdD btnId doc = true →
      hrefOfFirstId btnId (add_download_pdf_button p doc) =
        some (download_url (current_route p))) := by
  constructor
  · intro url
    refine ⟨rfl, rfl, rfl, rfl, rfl, ?_, ?_⟩
    · simp [mkButton, Dom.getAttrs, lookupAttr]
    · simp [mkButton, Dom.getAttrs, lookupAttr]
  · intro p doc h
    exact hrefOfFirstId_after_update p doc h

/-- Witness for C8's refresh clause at a page with a stale button. -/
theorem C8_button_contract_witness :
    existsIdD btnId pageNavAndButton = true ∧
    hrefOfFirstId btnId (add_download_pdf_button "/a/b" pageNavAndButton) =
      some (download_url (current_route "/a/b")) :=
  ⟨by decide, C8_button_contract.2 "/a/b" pageNavAndButton (by decide)⟩

end WikiPdf
